import Mathlib

/-!
Verification of the MPSC unbounded channel in `src/src/lib.rs` (crate `chanus`).

The shared state guarded by the mutex is `Critical<T> { buf: VecDeque<T>,
senders: usize, done: bool }`; the consumer additionally owns a private
`local_buf: VecDeque<T>`.  Every operation of the library (`Sender::send`,
`Sender::drop`, `Reciever::recv`, `Reciever::drop`) holds the mutex for the
whole of its work on the shared state, so a concurrent execution is a
sequential interleaving of these atomic operations.  We therefore embed the
channel as a deterministic state machine on the pair
(critical section, consumer local buffer) and quantify over arbitrary
operation sequences; this over-approximates the set of real executions
(it also contains sequences a real program cannot produce, such as more
producer drops than producer handles), so universally quantified theorems
cover every real execution.

`VecDeque<T>` is modelled as a `List T` holding the elements in FIFO order:
the head of the list is the BACK of the deque (the oldest element, the one
`pop_back` removes) and the end of the list is the FRONT (where `push_front`
inserts the newest element).  Capacity is not modelled.
-/

namespace Chanus

universe u

/-- Model of `VecDeque::push_front`: insert `v` at the front of the deque, which in our
back-to-front list representation is the end of the list. -/
def pushFront {T : Type u} (v : T) (q : List T) : List T := q ++ [v]

/-- Model of `VecDeque::pop_back`: remove and return the element at the back of the
deque (the oldest one), which in our representation is the head of the list;
`none` when the deque is empty. -/
def popBack {T : Type u} : List T → Option (T × List T)
  | [] => none
  | v :: rest => some (v, rest)

/-- Rust `Critical<T>`: the state protected by the mutex (`src/src/lib.rs:16-20`). -/
structure Critical (T : Type u) where
  buf : List T
  senders : Nat
  done : Bool
  deriving Repr, DecidableEq

/-- The whole channel state: the mutex-protected part plus the consumer's
private `local_buf` (`Reciever<T>`, `src/src/lib.rs:59-62`). -/
structure Chan (T : Type u) where
  crit : Critical T
  local_buf : List T
  deriving Repr, DecidableEq

/-- Rust `Sender::send` (`src/src/lib.rs:29-40`): under the mutex, if `done` return
`Err(val)`; otherwise `push_front` the value and return `Ok(())`.  (The
condition-variable `notify_one` after releasing the lock has no effect on the
shared state and is not modelled.) -/
def send {T : Type u} (c : Critical T) (val : T) : Except T Unit × Critical T :=
  if c.done then (Except.error val, c)
  else (Except.ok (), { c with buf := pushFront val c.buf })

/-- Rust `Sender::drop` (`src/src/lib.rs:43-57`): under the mutex, if `done` return;
otherwise `senders -= 1`, and if the count is now 0 set `done := true` (and
notify the possibly waiting consumer). -/
def senderDrop {T : Type u} (c : Critical T) : Critical T :=
  if c.done then c
  else
    let c' : Critical T := { c with senders := c.senders - 1 }
    if c'.senders = 0 then { c' with done := true } else c'

/- The Rust `usize` subtraction in `Sender::drop` panics on underflow (debug
builds); a theorem below shows every reachable state with `done = false` has
`senders ≥ 1` there, so `Nat` subtraction is exact on reachable states. -/

/-- Rust `Reciever::drop` (`src/src/lib.rs:98-104`): under the mutex, set
`done := true`.  The consumer's `local_buf` is destroyed together with the
endpoint; we keep it in the model state, where no real execution can observe
it afterwards. -/
def recieverDrop {T : Type u} (s : Chan T) : Chan T :=
  { s with crit := { s.crit with done := true } }

/-- Result of one `Reciever::recv` call.  `value v` is `Some(v)`, `closed` is
`None`; `blocked` marks the branch where the source calls `cond.wait(guard)`
and loops: no concurrent operation can run inside our atomic step, so the call
makes no progress and we record it as a stutter (state unchanged). -/
inductive RecvResult (T : Type u) where
  | value (v : T)
  | closed
  | blocked
  deriving Repr, DecidableEq

/-- Rust `Reciever::recv` (`src/src/lib.rs:64-95`): fast path pops the back of
`local_buf`; the slow path, under the mutex, pops the back of the shared
`buf`, and on success `mem::swap`s the (then empty) `local_buf` with the
remaining shared `buf`; when the shared `buf` is empty it returns `None` if
`done` and otherwise waits on the condition variable. -/
def recv {T : Type u} (s : Chan T) : RecvResult T × Chan T :=
  match popBack s.local_buf with
  | some (v, rest) => (RecvResult.value v, { s with local_buf := rest })
  | none =>
    match popBack s.crit.buf with
    | some (v, rest) =>
        -- `mem::swap(&mut self.local_buf, &mut guard.buf)` with `guard.buf = rest`
        -- and `self.local_buf` empty (the fast path failed).
        (RecvResult.value v,
          { crit := { s.crit with buf := s.local_buf }, local_buf := rest })
    | none =>
        if s.crit.done then (RecvResult.closed, s) else (RecvResult.blocked, s)

/-- The `Critical` state built by the factory `unbounded`
(`src/src/lib.rs:106-131`): empty queue, `senders = 1`, `done = false`. -/
def unboundedCrit (T : Type u) : Critical T :=
  { buf := [], senders := 1, done := false }

/-- The full initial channel state produced by `unbounded`: the critical
section above together with the consumer's empty `local_buf`. -/
def unbounded (T : Type u) : Chan T :=
  { crit := unboundedCrit T, local_buf := [] }

/-- Modelled from the spec: `Sender<T>` in `src/src/lib.rs` has no `Clone`
implementation (the factory returns a single producer); §4.2 of the design
defines `clone()` as: under the mutex, increment `producer_count`, then return
a new handle sharing the same core.  Only the effect on the shared critical
state is representable here. -/
def cloneSender {T : Type u} (c : Critical T) : Critical T :=
  { c with senders := c.senders + 1 }

/-! ## Operation traces

An `Op` is one atomic call on the channel; `stepOut` runs it, returning the
next state and the observable outputs of the call (`[]` for the drops, which
return nothing).  `runOut` folds a whole sequence. -/

/-- One atomic operation on the channel. -/
inductive Op (T : Type u) where
  | send (v : T)
  | recv
  | senderDrop
  | recieverDrop
  deriving Repr, DecidableEq

/-- Observable outcome of one operation.  `sendOk v` records that `send(v)`
returned `Ok` (the value is taken from the call, `Ok` itself carries none). -/
inductive Out (T : Type u) where
  | sendOk (v : T)
  | sendErr (v : T)
  | recvSome (v : T)
  | recvNone
  | recvBlocked
  deriving Repr, DecidableEq

/-- The output of a `send(v)` call from its Rust return value. -/
def sendOut {T : Type u} (v : T) : Except T Unit → Out T
  | Except.ok _ => Out.sendOk v
  | Except.error w => Out.sendErr w

/-- The output of a `recv()` call from its result. -/
def recvOut {T : Type u} : RecvResult T → Out T
  | RecvResult.value v => Out.recvSome v
  | RecvResult.closed => Out.recvNone
  | RecvResult.blocked => Out.recvBlocked

/-- Run one atomic operation, returning the next state and its outputs
(`[]` for the drops, which return nothing). -/
def stepOut {T : Type u} (s : Chan T) : Op T → Chan T × List (Out T)
  | Op.send v => ({ s with crit := (send s.crit v).2 }, [sendOut v (send s.crit v).1])
  | Op.recv => ((recv s).2, [recvOut (recv s).1])
  | Op.senderDrop => ({ s with crit := senderDrop s.crit }, [])
  | Op.recieverDrop => (recieverDrop s, [])

/-- Run a sequence of operations, collecting all outputs in order. -/
def runOut {T : Type u} (s : Chan T) : List (Op T) → Chan T × List (Out T)
  | [] => (s, [])
  | op :: ops =>
      ((runOut (stepOut s op).1 ops).1,
        (stepOut s op).2 ++ (runOut (stepOut s op).1 ops).2)

/-- The state after running a sequence of operations. -/
def runState {T : Type u} (s : Chan T) (ops : List (Op T)) : Chan T :=
  (runOut s ops).1

/-- The values carried by successful sends, in call order. -/
def sentOkValues {T : Type u} (outs : List (Out T)) : List T :=
  outs.filterMap fun o =>
    match o with
    | Out.sendOk v => some v
    | _ => none

/-- The values returned by `recv` as `Some(v)`, in call order. -/
def recvdValues {T : Type u} (outs : List (Out T)) : List T :=
  outs.filterMap fun o =>
    match o with
    | Out.recvSome v => some v
    | _ => none

/-- The values currently held by the channel and not yet returned, in the
order `recv` will deliver them: first the consumer's local buffer, then the
shared queue (back to front, i.e. oldest first). -/
def pending {T : Type u} (s : Chan T) : List T :=
  s.local_buf ++ s.crit.buf

/-- The state predicate behind the no-underflow argument: either the channel
is already marked `done`, or at least one producer is still counted. -/
def liveSenders {T : Type u} (s : Chan T) : Prop :=
  s.crit.done = true ∨ 1 ≤ s.crit.senders

/-- Drained state: `done` is observed with nothing left to deliver anywhere. -/
def drained {T : Type u} (s : Chan T) : Prop :=
  s.crit.done = true ∧ s.crit.buf = [] ∧ s.local_buf = []

/-! ## Basic equations for the operations -/

theorem recv_fast {T : Type u} (s : Chan T) (v : T) (rest : List T)
    (h : s.local_buf = v :: rest) :
    recv s = (RecvResult.value v, { s with local_buf := rest }) := by
  simp [recv, h, popBack]

theorem recv_slow {T : Type u} (s : Chan T) (v : T) (rest : List T)
    (hl : s.local_buf = []) (hb : s.crit.buf = v :: rest) :
    recv s = (RecvResult.value v,
      { crit := { s.crit with buf := [] }, local_buf := rest }) := by
  simp [recv, hl, hb, popBack]

theorem recv_empty {T : Type u} (s : Chan T)
    (hl : s.local_buf = []) (hb : s.crit.buf = []) :
    recv s = (if s.crit.done then RecvResult.closed else RecvResult.blocked, s) := by
  by_cases hd : s.crit.done <;> simp [recv, hl, hb, hd, popBack]

theorem send_done_eq {T : Type u} (c : Critical T) (v : T) :
    ((send c v).2).done = c.done := by
  by_cases h : c.done <;> simp [send, h]

theorem send_senders_eq {T : Type u} (c : Critical T) (v : T) :
    ((send c v).2).senders = c.senders := by
  by_cases h : c.done <;> simp [send, h]

theorem senderDrop_buf_eq {T : Type u} (c : Critical T) :
    (senderDrop c).buf = c.buf := by
  by_cases h : c.done
  · simp [senderDrop, h]
  · simp only [senderDrop, h, if_false, Bool.false_eq_true]
    split <;> rfl

theorem senderDrop_of_done {T : Type u} (c : Critical T) (h : c.done = true) :
    senderDrop c = c := by
  simp [senderDrop, h]

theorem senderDrop_of_not_done {T : Type u} (c : Critical T) (h : c.done = false) :
    senderDrop c
      = if c.senders - 1 = 0
        then { c with senders := c.senders - 1, done := true }
        else { c with senders := c.senders - 1 } := by
  simp only [senderDrop, h, Bool.false_eq_true, if_false]

theorem recv_crit_preserved {T : Type u} (s : Chan T) :
    ((recv s).2).crit.done = s.crit.done ∧ ((recv s).2).crit.senders = s.crit.senders := by
  rcases hl : s.local_buf with _ | ⟨v, rest⟩
  · rcases hb : s.crit.buf with _ | ⟨v, rest⟩
    · simp [recv_empty s hl hb]
    · simp [recv_slow s v rest hl hb]
  · simp [recv_fast s v rest hl]

/-! ## The delivery invariant

`recvdValues outs ++ pending s'` is, after every step, `pending s ++
sentOkValues outs`: values flow from successful sends into the pending pool
and out through `recv`, preserving order and multiplicity. -/

theorem recvdValues_append {T : Type u} (a b : List (Out T)) :
    recvdValues (a ++ b) = recvdValues a ++ recvdValues b := by
  simp [recvdValues]

theorem sentOkValues_append {T : Type u} (a b : List (Out T)) :
    sentOkValues (a ++ b) = sentOkValues a ++ sentOkValues b := by
  simp [sentOkValues]

theorem stepOut_delivery {T : Type u} (s : Chan T) (op : Op T) :
    recvdValues (stepOut s op).2 ++ pending (stepOut s op).1
      = pending s ++ sentOkValues (stepOut s op).2 := by
  cases op with
  | send v =>
      by_cases h : s.crit.done <;>
        simp [stepOut, send, sendOut, h, pending, recvdValues, sentOkValues, pushFront]
  | recv =>
      rcases hl : s.local_buf with _ | ⟨v, rest⟩
      · rcases hb : s.crit.buf with _ | ⟨v, rest⟩
        · by_cases hd : s.crit.done <;>
            simp [stepOut, recv_empty s hl hb, hd, recvOut, pending, recvdValues, sentOkValues]
        · simp [stepOut, recv_slow s v rest hl hb, recvOut, pending, recvdValues,
            sentOkValues, hl, hb]
      · simp [stepOut, recv_fast s v rest hl, recvOut, pending, recvdValues, sentOkValues, hl]
  | senderDrop =>
      simp [stepOut, pending, recvdValues, sentOkValues, senderDrop_buf_eq]
  | recieverDrop =>
      simp [stepOut, recieverDrop, pending, recvdValues, sentOkValues]

theorem runOut_delivery {T : Type u} (s : Chan T) (ops : List (Op T)) :
    recvdValues (runOut s ops).2 ++ pending (runOut s ops).1
      = pending s ++ sentOkValues (runOut s ops).2 := by
  induction ops generalizing s with
  | nil => simp [runOut, recvdValues, sentOkValues]
  | cons op ops ih =>
      simp only [runOut, recvdValues_append, sentOkValues_append, List.append_assoc]
      rw [ih (stepOut s op).1, ← List.append_assoc, stepOut_delivery, List.append_assoc]

theorem runState_cons {T : Type u} (s : Chan T) (op : Op T) (ops : List (Op T)) :
    runState s (op :: ops) = runState (stepOut s op).1 ops := rfl

/-! ## Preserved state predicates -/

theorem stepOut_done {T : Type u} (s : Chan T) (op : Op T) (h : s.crit.done = true) :
    (stepOut s op).1.crit.done = true := by
  cases op with
  | send v => simpa [stepOut] using (send_done_eq s.crit v).trans h
  | recv => simpa [stepOut] using (recv_crit_preserved s).1.trans h
  | senderDrop => simp [stepOut, senderDrop_of_done s.crit h, h]
  | recieverDrop => simp [stepOut, recieverDrop]

theorem runState_done {T : Type u} (s : Chan T) (ops : List (Op T))
    (h : s.crit.done = true) : (runState s ops).crit.done = true := by
  induction ops generalizing s with
  | nil => exact h
  | cons op ops ih => rw [runState_cons]; exact ih _ (stepOut_done s op h)

theorem stepOut_liveSenders {T : Type u} (s : Chan T) (op : Op T)
    (h : liveSenders s) : liveSenders (stepOut s op).1 := by
  cases op with
  | send v =>
      rcases h with h | h
      · exact Or.inl (by simpa [stepOut] using (send_done_eq s.crit v).trans h)
      · exact Or.inr (by simpa [stepOut, send_senders_eq] using h)
  | recv =>
      rcases h with h | h
      · exact Or.inl (by simpa [stepOut] using (recv_crit_preserved s).1.trans h)
      · exact Or.inr (by simpa [stepOut, (recv_crit_preserved s).2] using h)
  | senderDrop =>
      by_cases hd : s.crit.done
      · exact Or.inl (by simp [stepOut, senderDrop_of_done s.crit hd, hd])
      · have hd' : s.crit.done = false := by simpa using hd
        rcases h with h | h
        · exact absurd h (by simp [hd'])
        · by_cases hz : s.crit.senders - 1 = 0
          · exact Or.inl (by simp [stepOut, senderDrop_of_not_done s.crit hd', hz])
          · exact Or.inr (by simp [stepOut, senderDrop_of_not_done s.crit hd', hz]; omega)
  | recieverDrop => exact Or.inl (by simp [stepOut, recieverDrop])

theorem runState_liveSenders {T : Type u} (s : Chan T) (ops : List (Op T))
    (h : liveSenders s) : liveSenders (runState s ops) := by
  induction ops generalizing s with
  | nil => exact h
  | cons op ops ih => rw [runState_cons]; exact ih _ (stepOut_liveSenders s op h)

theorem recv_closed_iff {T : Type u} (s : Chan T) :
    (recv s).1 = RecvResult.closed ↔ drained s := by
  constructor
  · intro h
    rcases hl : s.local_buf with _ | ⟨v, rest⟩
    · rcases hb : s.crit.buf with _ | ⟨v, rest⟩
      · by_cases hd : s.crit.done
        · exact ⟨hd, hb, hl⟩
        · rw [recv_empty s hl hb] at h
          simp [hd] at h
      · rw [recv_slow s v rest hl hb] at h
        simp at h
    · rw [recv_fast s v rest hl] at h
      simp at h
  · rintro ⟨hd, hb, hl⟩
    rw [recv_empty s hl hb]
    simp [hd]

theorem recv_state_of_drained {T : Type u} (s : Chan T) (h : drained s) :
    (recv s).2 = s := by
  rcases h with ⟨hd, hb, hl⟩
  rw [recv_empty s hl hb]

theorem stepOut_drained {T : Type u} (s : Chan T) (op : Op T)
    (h : drained s) : drained (stepOut s op).1 := by
  rcases h with ⟨hd, hb, hl⟩
  cases op with
  | send v => exact ⟨by simpa [stepOut] using (send_done_eq s.crit v).trans hd,
      by simpa [stepOut, send, hd] using hb, by simpa [stepOut] using hl⟩
  | recv =>
      have hs : (recv s).2 = s := recv_state_of_drained s ⟨hd, hb, hl⟩
      exact ⟨by simpa [stepOut, hs] using hd, by simpa [stepOut, hs] using hb,
        by simpa [stepOut, hs] using hl⟩
  | senderDrop =>
      refine ⟨?_, ?_, by simpa [stepOut] using hl⟩
      · simp [stepOut, senderDrop_of_done s.crit hd, hd]
      · simpa [stepOut, senderDrop_of_done s.crit hd] using hb
  | recieverDrop =>
      exact ⟨by simp [stepOut, recieverDrop], by simpa [stepOut, recieverDrop] using hb,
        by simpa [stepOut, recieverDrop] using hl⟩

theorem runState_drained {T : Type u} (s : Chan T) (ops : List (Op T))
    (h : drained s) : drained (runState s ops) := by
  induction ops generalizing s with
  | nil => exact h
  | cons op ops ih => rw [runState_cons]; exact ih _ (stepOut_drained s op h)

/-! ## Claim theorems -/

/-- C1: starting from the fresh channel, for any operation sequence in which
the consumer is never disposed, the values passed to `Ok`-returning sends are
exactly the values already returned by `recv` (in submission order) followed
by the values still pending in the consumer's local buffer and the shared
queue: every successfully sent value is delivered at most once, in FIFO
order, and none is lost — the received values form a prefix of the sent
ones, whether they travel through the shared queue or the local buffer. -/
theorem fifo_delivery {T : Type u} (ops : List (Op T))
    (_hrx : Op.recieverDrop ∉ ops) :
    sentOkValues (runOut (unbounded T) ops).2
      = recvdValues (runOut (unbounded T) ops).2 ++ pending (runOut (unbounded T) ops).1
    ∧ recvdValues (runOut (unbounded T) ops).2
        <+: sentOkValues (runOut (unbounded T) ops).2 := by
  have h := runOut_delivery (unbounded T) ops
  have hp : pending (unbounded T) = [] := rfl
  rw [hp, List.nil_append] at h
  exact ⟨h.symm, ⟨pending (runOut (unbounded T) ops).1, h⟩⟩

/-- Witness for C1 at a concrete run: two sends and one recv. -/
theorem fifo_delivery_witness :
    Op.recieverDrop ∉ ([Op.send 1, Op.send 2, Op.recv] : List (Op Nat))
    ∧ (sentOkValues (runOut (unbounded Nat) [Op.send 1, Op.send 2, Op.recv]).2
        = recvdValues (runOut (unbounded Nat) [Op.send 1, Op.send 2, Op.recv]).2
          ++ pending (runOut (unbounded Nat) [Op.send 1, Op.send 2, Op.recv]).1
      ∧ recvdValues (runOut (unbounded Nat) [Op.send 1, Op.send 2, Op.recv]).2
          <+: sentOkValues (runOut (unbounded Nat) [Op.send 1, Op.send 2, Op.recv]).2) :=
  ⟨by decide, fifo_delivery _ (by decide)⟩

/-- C2: `send(v)` on a closed channel returns `Err(v)` with the whole
critical state (queue, producer count, closed flag) unchanged — in
particular after the consumer has been disposed — while on an open channel
it returns `Ok` and appends `v` to the queue. -/
theorem send_spec {T : Type u} (c : Critical T) (v : T) :
    (c.done = true → send c v = (Except.error v, c))
    ∧ (c.done = false →
        send c v = (Except.ok (), { c with buf := c.buf ++ [v] }))
    ∧ ∀ s : Chan T, send (recieverDrop s).crit v
        = (Except.error v, (recieverDrop s).crit) :=
  ⟨fun h => by simp [send, h],
   fun h => by simp [send, h, pushFront],
   fun s => by simp [send, recieverDrop]⟩

/-- Witness for C2: a closed state rejects the value unchanged, an open
state accepts it. -/
theorem send_spec_witness :
    (({ buf := [9], senders := 1, done := true } : Critical Nat).done = true
      ∧ send { buf := [9], senders := 1, done := true } 7
          = (Except.error 7, ({ buf := [9], senders := 1, done := true } : Critical Nat)))
    ∧ (({ buf := [5], senders := 1, done := false } : Critical Nat).done = false
      ∧ send { buf := [5], senders := 1, done := false } 7
          = (Except.ok (), ({ buf := [5, 7], senders := 1, done := false } : Critical Nat))) :=
  ⟨⟨rfl, (send_spec { buf := [9], senders := 1, done := true } 7).1 rfl⟩,
   ⟨rfl, (send_spec { buf := [5], senders := 1, done := false } 7).2.1 rfl⟩⟩

/-- C3: a send on an open channel returns `Ok` and appends the value at the
tail (newest end) of the shared queue: the new queue is the old one with `v`
appended, so `v` is its last element and all previous elements precede it in
their prior order. -/
theorem send_appends_tail {T : Type u} (c : Critical T) (v : T)
    (h : c.done = false) :
    (send c v).1 = Except.ok ()
    ∧ (send c v).2.buf = c.buf ++ [v]
    ∧ (send c v).2.buf.getLast? = some v := by
  simp [send, h, pushFront]

/-- Witness for C3 at a concrete open state. -/
theorem send_appends_tail_witness :
    ({ buf := [1, 2], senders := 1, done := false } : Critical Nat).done = false
    ∧ ((send { buf := [1, 2], senders := 1, done := false } 3).1 = Except.ok ()
      ∧ (send ({ buf := [1, 2], senders := 1, done := false } : Critical Nat) 3).2.buf
          = [1, 2] ++ [3]
      ∧ (send ({ buf := [1, 2], senders := 1, done := false } : Critical Nat) 3).2.buf.getLast?
          = some 3) :=
  ⟨rfl, send_appends_tail { buf := [1, 2], senders := 1, done := false } 3 rfl⟩

/-- C4: when `recv` takes the slow path (empty local buffer) and finds the
shared queue non-empty, it returns `Some` of the oldest queued value, the
shared queue is left empty, and the local buffer now holds all the remaining
previously-queued values in their original FIFO order — the whole remainder
moves in the one `mem::swap`. -/
theorem recv_slow_path {T : Type u} (s : Chan T) (v : T) (rest : List T)
    (hl : s.local_buf = []) (hb : s.crit.buf = v :: rest) :
    recv s = (RecvResult.value v,
      { crit := { s.crit with buf := [] }, local_buf := rest }) :=
  recv_slow s v rest hl hb

/-- Witness for C4: three queued values; the oldest is returned, the other
two move to the local buffer and the shared queue is emptied. -/
theorem recv_slow_path_witness :
    ((⟨⟨[10, 20, 30], 1, false⟩, []⟩ : Chan Nat).local_buf = []
      ∧ (⟨⟨[10, 20, 30], 1, false⟩, []⟩ : Chan Nat).crit.buf = 10 :: [20, 30])
    ∧ recv (⟨⟨[10, 20, 30], 1, false⟩, []⟩ : Chan Nat)
      = (RecvResult.value 10, (⟨⟨[], 1, false⟩, [20, 30]⟩ : Chan Nat)) :=
  ⟨⟨rfl, rfl⟩, recv_slow_path ⟨⟨[10, 20, 30], 1, false⟩, []⟩ 10 [20, 30] rfl rfl⟩

/-- C5: `recv` returns `None` exactly in the states where `done` holds and
both the shared queue and the local buffer are empty; on any run from the
fresh channel that reaches such a state, every `Ok`-sent value has already
been returned by an earlier `recv`; and once `recv` has returned `None`,
`recv` still returns `None` after any further operations (shutdown is
terminal). -/
theorem recv_none_terminal {T : Type u} :
    (∀ s : Chan T, (recv s).1 = RecvResult.closed ↔
        s.crit.done = true ∧ s.crit.buf = [] ∧ s.local_buf = [])
    ∧ (∀ ops : List (Op T),
        (recv (runState (unbounded T) ops)).1 = RecvResult.closed →
          recvdValues (runOut (unbounded T) ops).2
            = sentOkValues (runOut (unbounded T) ops).2)
    ∧ (∀ (s : Chan T) (ops : List (Op T)), (recv s).1 = RecvResult.closed →
        (recv (runState (recv s).2 ops)).1 = RecvResult.closed) := by
  refine ⟨fun s => recv_closed_iff s, fun ops h => ?_, fun s ops h => ?_⟩
  · have hd : drained (runState (unbounded T) ops) := (recv_closed_iff _).1 h
    have hrun := runOut_delivery (unbounded T) ops
    have hp0 : pending (unbounded T) = [] := rfl
    have hp : pending (runOut (unbounded T) ops).1 = [] := by
      rcases hd with ⟨_, hb, hl⟩
      simp only [runState] at hb hl
      simp [pending, hb, hl]
    rw [hp0, List.nil_append, hp, List.append_nil] at hrun
    exact hrun
  · have hd : drained s := (recv_closed_iff s).1 h
    have hs : (recv s).2 = s := recv_state_of_drained s hd
    rw [hs]
    exact (recv_closed_iff _).2 (runState_drained s ops hd)

/-- Witness for C5: after `send 3; recv; senderDrop` the channel is drained
and closed; `recv` reports `None` and everything sent was received. -/
theorem recv_none_terminal_witness :
    (recv (runState (unbounded Nat) [Op.send 3, Op.recv, Op.senderDrop])).1
        = RecvResult.closed
    ∧ recvdValues (runOut (unbounded Nat) [Op.send 3, Op.recv, Op.senderDrop]).2
        = sentOkValues (runOut (unbounded Nat) [Op.send 3, Op.recv, Op.senderDrop]).2 :=
  ⟨by decide, recv_none_terminal.2.1 _ (by decide)⟩

/-- C6: producer disposal leaves the queue untouched in every case; when the
channel is already closed it changes nothing at all; otherwise it decrements
the producer count by exactly one and sets the closed flag exactly when the
count thereby reaches zero.  (The hypothesis rules out the unreachable
underflow state `done = false ∧ senders = 0`; C10 shows all reachable states
satisfy it.) -/
theorem senderDrop_spec {T : Type u} (c : Critical T)
    (h : c.done = true ∨ 1 ≤ c.senders) :
    (senderDrop c).buf = c.buf
    ∧ (c.done = true → senderDrop c = c)
    ∧ (c.done = false →
        (senderDrop c).senders + 1 = c.senders
        ∧ ((senderDrop c).done = true ↔ c.senders = 1)) := by
  refine ⟨senderDrop_buf_eq c, fun hd => senderDrop_of_done c hd, fun hd => ?_⟩
  have h1 : 1 ≤ c.senders := by
    rcases h with h | h
    · rw [hd] at h; cases h
    · exact h
  rw [senderDrop_of_not_done c hd]
  by_cases hz : c.senders - 1 = 0
  · simp only [hz, if_true, if_pos]
    constructor
    · omega
    · simp only [true_iff]
      omega
  · simp only [hz, if_neg, if_false]
    constructor
    · omega
    · simp only [hd]
      constructor
      · intro hfalse; cases hfalse
      · intro h1'; omega

/-- Witness for C6 on an open state with two producers: the count drops to
one and the channel stays open with the queue untouched. -/
theorem senderDrop_spec_witness :
    (({ buf := [4], senders := 2, done := false } : Critical Nat).done = true
      ∨ 1 ≤ ({ buf := [4], senders := 2, done := false } : Critical Nat).senders)
    ∧ ((senderDrop ({ buf := [4], senders := 2, done := false } : Critical Nat)).buf = [4]
      ∧ (({ buf := [4], senders := 2, done := false } : Critical Nat).done = true →
          senderDrop ({ buf := [4], senders := 2, done := false } : Critical Nat)
            = { buf := [4], senders := 2, done := false })
      ∧ (({ buf := [4], senders := 2, done := false } : Critical Nat).done = false →
          (senderDrop ({ buf := [4], senders := 2, done := false } : Critical Nat)).senders + 1
              = ({ buf := [4], senders := 2, done := false } : Critical Nat).senders
          ∧ ((senderDrop ({ buf := [4], senders := 2, done := false } : Critical Nat)).done = true
              ↔ ({ buf := [4], senders := 2, done := false } : Critical Nat).senders = 1))) :=
  ⟨Or.inr (by decide), senderDrop_spec { buf := [4], senders := 2, done := false }
    (Or.inr (by decide))⟩

/-- C7: the closed flag is monotone: the factory starts it at `false`, and
from any state in which it is `true`, no sequence of channel operations
(sends, recvs, producer or consumer disposals) ever makes it `false` again. -/
theorem done_monotone {T : Type u} :
    (unbounded T).crit.done = false
    ∧ ∀ (s : Chan T) (ops : List (Op T)),
        s.crit.done = true → (runState s ops).crit.done = true :=
  ⟨rfl, fun s ops h => runState_done s ops h⟩

/-- Witness for C7: disposing the consumer closes the channel and it stays
closed through a send, a recv and a producer disposal. -/
theorem done_monotone_witness :
    (runState (recieverDrop (unbounded Nat)) [Op.send 5, Op.recv, Op.senderDrop]).crit.done
      = true :=
  done_monotone.2 (recieverDrop (unbounded Nat)) [Op.send 5, Op.recv, Op.senderDrop] (by decide)

/-- C8: in every state reached from the fresh channel by a sequence of send
and recv operations, the number of `Ok` sends minus the number of
value-bearing recvs equals the number of values resident in the shared queue
plus the local buffer (stated additively over `Nat`). -/
theorem sends_recvs_resident {T : Type u} (ops : List (Op T))
    (_h : ∀ op ∈ ops, op ≠ Op.senderDrop ∧ op ≠ Op.recieverDrop) :
    (sentOkValues (runOut (unbounded T) ops).2).length
      = (recvdValues (runOut (unbounded T) ops).2).length
        + (runOut (unbounded T) ops).1.crit.buf.length
        + (runOut (unbounded T) ops).1.local_buf.length := by
  have hrun := runOut_delivery (unbounded T) ops
  have hp0 : pending (unbounded T) = [] := rfl
  rw [hp0, List.nil_append] at hrun
  have hlen := congrArg List.length hrun
  simp only [pending, List.length_append] at hlen
  omega

/-- Witness for C8: three sends and one recv leave one value received and
two resident in the local buffer. -/
theorem sends_recvs_resident_witness :
    (∀ op ∈ ([Op.send 1, Op.send 2, Op.send 3, Op.recv] : List (Op Nat)),
        op ≠ Op.senderDrop ∧ op ≠ Op.recieverDrop)
    ∧ (sentOkValues (runOut (unbounded Nat) [Op.send 1, Op.send 2, Op.send 3, Op.recv]).2).length
        = (recvdValues (runOut (unbounded Nat) [Op.send 1, Op.send 2, Op.send 3, Op.recv]).2).length
          + (runOut (unbounded Nat) [Op.send 1, Op.send 2, Op.send 3, Op.recv]).1.crit.buf.length
          + (runOut (unbounded Nat) [Op.send 1, Op.send 2, Op.send 3, Op.recv]).1.local_buf.length :=
  ⟨by decide, sends_recvs_resident _ (by decide)⟩

/-- C9: the producer `clone()` of the design (modelled from the spec, since
the source's `Sender` has no `Clone` implementation) increments the producer
count by exactly one and leaves the rest of the shared core — queue and
closed flag — unchanged, so any number of producers may be registered. -/
theorem cloneSender_spec {T : Type u} (c : Critical T) :
    (cloneSender c).senders = c.senders + 1
    ∧ (cloneSender c).buf = c.buf
    ∧ (cloneSender c).done = c.done :=
  ⟨rfl, rfl, rfl⟩

/-- C10: from the factory's initial state (one producer, open channel), after
any sequence of channel operations, whenever the closed flag is still false —
in particular at the point where a producer disposal is about to decrement
the count — the producer count is at least one, so the `usize` decrement in
`Sender::drop` cannot underflow. -/
theorem senders_never_underflow {T : Type u} (ops : List (Op T))
    (h : (runState (unbounded T) ops).crit.done = false) :
    1 ≤ (runState (unbounded T) ops).crit.senders := by
  have hlive := runState_liveSenders (unbounded T) ops (Or.inr (le_refl 1))
  rcases hlive with hd | hs
  · rw [h] at hd; cases hd
  · exact hs

/-- Witness for C10: after a send and a recv the channel is still open and
the producer count is one. -/
theorem senders_never_underflow_witness :
    (runState (unbounded Nat) [Op.send 2, Op.recv]).crit.done = false
    ∧ 1 ≤ (runState (unbounded Nat) [Op.send 2, Op.recv]).crit.senders :=
  ⟨by decide, senders_never_underflow [Op.send 2, Op.recv] (by decide)⟩

end Chanus
